import Mathlib

/-!
# Verification of the Into resource statement database

A shallow embedding of the `PiiResourceStatement` / `PiiResourceDatabase`
triple store and its query algebra.  The `PiiResourceStatement` class
declaration and its documentation are in the repository
(`src/modules/dsp/lib/PiiWavelet.h`, concatenated headers), and the test
`src/test/resourcedatabase/main.cc` exercises the database; the database
implementation itself is not among the source files, so its operations are
modelled from the specification, faithful to the documented behaviour of
the test's expectations.
-/

namespace Into

/-- The possible types of the object of a statement, from the
`PiiResourceStatement::Type` enum: `InvalidType` (the statement is
invalid), `LiteralType` (the object is a string literal), `ResourceType`
(the object references another resource). -/
inductive StatementType where
  | InvalidType
  | LiteralType
  | ResourceType
deriving DecidableEq, Repr

/-- A resource statement: subject, predicate, object strings, the object
type tag, and the id assigned by the database (-1 meaning "not yet
stored").  Mirrors the fields of `PiiResourceStatement::Data`. -/
structure PiiResourceStatement where
  subject : String
  predicate : String
  object : String
  type : StatementType
  id : Int
deriving DecidableEq, Repr

namespace PiiResourceStatement

/-- Modelled from the spec: the default `PiiResourceStatement()`
constructor, documented as "Create an invalid statement"; all strings
empty, type `InvalidType`, id -1. -/
def mkDefault : PiiResourceStatement :=
  { subject := "", predicate := "", object := "", type := .InvalidType, id := -1 }

/-- The text-subject constructor
`PiiResourceStatement(subject, predicate, object, type = LiteralType, id = -1)`. -/
def mk' (subject predicate object : String)
    (type : StatementType := .LiteralType) (id : Int := -1) : PiiResourceStatement :=
  { subject := subject, predicate := predicate, object := object, type := type, id := id }

/-- Modelled from the spec: the integer-subject constructor
`PiiResourceStatement(int subject, ...)`, whose subject "will be converted
to `[subject]`" (reification token). -/
def mkInt (subject : Int) (predicate object : String)
    (type : StatementType := .LiteralType) (id : Int := -1) : PiiResourceStatement :=
  mk' ("[" ++ toString subject ++ "]") predicate object type id

/-- Modelled from the spec: `isValid()` — "A statement is valid if and
only if both subject and object are non-empty, and the type of the object
is not `InvalidType`. The predicate may be an empty string." -/
def isValid (s : PiiResourceStatement) : Bool :=
  s.subject ≠ "" && s.type ≠ StatementType.InvalidType && s.object ≠ ""

end PiiResourceStatement

/-- The statement store: an ordered collection of statements.  Mirrors
the single list of statements owned by `PiiResourceDatabase`. -/
structure PiiResourceDatabase where
  lstStatements : List PiiResourceStatement
deriving DecidableEq, Repr

namespace PiiResourceDatabase

/-- A fresh, empty database. -/
def empty : PiiResourceDatabase := ⟨[]⟩

/-- Modelled from the spec: `statementCount()` — the number of stored
statements. -/
def statementCount (db : PiiResourceDatabase) : Int :=
  db.lstStatements.length

/-- Modelled from the spec: `addStatement(Statement) -> id` — validates;
if invalid, returns -1 and does not append; if valid, assigns the next
sequential id (overwriting any caller-supplied id), appends, and returns
the assigned id.  The updated store is returned alongside the id. -/
def addStatement (db : PiiResourceDatabase) (s : PiiResourceStatement) :
    PiiResourceDatabase × Int :=
  if s.isValid then
    let newId : Int := db.lstStatements.length
    (⟨db.lstStatements ++ [{ s with id := newId }]⟩, newId)
  else
    (db, -1)

/-- The `resource(subject, predicate, object)` factory helper: builds a
`ResourceType`-tagged statement without inserting it. -/
def resource (subject predicate object : String) : PiiResourceStatement :=
  .mk' subject predicate object .ResourceType

/-- The `literal(subject, predicate, object)` factory helper: builds a
`LiteralType`-tagged statement without inserting it. -/
def literal (subject predicate object : String) : PiiResourceStatement :=
  .mk' subject predicate object .LiteralType

/-- The `literal(int subject, predicate, object)` factory helper used by
the test for reification statements. -/
def literalInt (subject : Int) (predicate object : String) : PiiResourceStatement :=
  .mkInt subject predicate object .LiteralType

/-- Add a whole list of statements in order, collecting the ids returned
by each `addStatement` call. -/
def addAll (db : PiiResourceDatabase) : List PiiResourceStatement →
    PiiResourceDatabase × List Int
  | [] => (db, [])
  | s :: rest =>
    let (db1, i) := db.addStatement s
    let (db2, is) := db1.addAll rest
    (db2, i :: is)

end PiiResourceDatabase

/-- The decimal value of a digit character, or `none` for a non-digit. -/
def digitVal (c : Char) : Option Nat :=
  if '0' ≤ c && c ≤ '9' then some (c.toNat - '0'.toNat) else none

/-- Accumulate a decimal numeral over a list of characters; fails on the
first non-digit. -/
def parseNatAux : List Char → Nat → Option Nat
  | [], acc => some acc
  | c :: cs, acc =>
    match digitVal c with
    | some d => parseNatAux cs (acc * 10 + d)
    | none => none

/-- Parse an optionally `-`-signed decimal integer from a character
list; `none` when the list is empty or contains a non-digit. -/
def parseIntChars : List Char → Option Int
  | [] => none
  | '-' :: cs =>
    match cs with
    | [] => none
    | _ => (parseNatAux cs 0).map (fun n => -(n : Int))
  | cs => (parseNatAux cs 0).map (fun n => (n : Int))

/-- Modelled from the spec: `resourceStringTo<int>` — parse a string as
a decimal integer, `none` when it does not parse. -/
def parseInt (s : String) : Option Int := parseIntChars s.data

/-- Modelled from the spec: `resourceIdToInt(subject)` — interpret a
`[n]` reification token as its integer id, or -1 if the string is not a
reification token. -/
def resourceIdToInt (s : String) : Int :=
  match s.data with
  | '[' :: rest =>
    if rest.getLast? = some ']' then
      match parseIntChars rest.dropLast with
      | some n => n
      | none => -1
    else -1
  | _ => -1

/-- A textual term selector of a query atom: the subject, predicate or
object text of the statement under test. -/
inductive Term where
  | subj
  | pred
  | obj
deriving DecidableEq, Repr

/-- The text a term selects from a statement. -/
def Term.text : Term → PiiResourceStatement → String
  | .subj, s => s.subject
  | .pred, s => s.predicate
  | .obj, s => s.object

/-- An ordering comparison operator; per the spec, ordering operators
apply to numeric-coerced values. -/
inductive CmpOp where
  | lt
  | le
  | gt
  | ge
deriving DecidableEq, Repr

/-- Apply an ordering comparison to two integers. -/
def CmpOp.apply : CmpOp → Int → Int → Bool
  | .lt, a, b => a < b
  | .le, a, b => a ≤ b
  | .gt, a, b => a > b
  | .ge, a, b => a ≥ b

/-- Modelled from the spec: the query expression tree — atomic term
comparisons over `{Subject, Predicate, Object, StatementId, ObjectKind}`,
the `attribute(name) == value` shorthand, numeric-coerced ordering
comparisons (`resourceStringTo<int>`), `resourceIdToInt(subject)`
comparisons, `MemberOf` nodes whose right-hand side is a materialized
subquery result, and the logical combinators. -/
inductive QueryExpr where
  /-- `term == "v"` over raw text. -/
  | termEq (t : Term) (v : String)
  /-- `term != "v"` over raw text. -/
  | termNe (t : Term) (v : String)
  /-- `statementId == v`. -/
  | idEq (v : Int)
  /-- `statementId != v`. -/
  | idNe (v : Int)
  /-- `resourceType == v` (object-kind test). -/
  | typeEq (v : StatementType)
  /-- `resourceType != v`. -/
  | typeNe (v : StatementType)
  /-- `resourceStringTo<int>(term) <op> v`: the term's text parsed as an
  integer compared to `v`; a row whose text does not parse does not match. -/
  | intCmp (t : Term) (op : CmpOp) (v : Int)
  /-- `resourceStringTo<int>(attribute(name)) <op> v`: matches when the
  predicate equals `name` and the object parses as an integer satisfying
  the comparison, on the same statement. -/
  | attrCmp (name : String) (op : CmpOp) (v : Int)
  /-- `resourceIdToInt(subject) == v`. -/
  | ridEq (v : Int)
  /-- `resourceIdToInt(subject) != v`. -/
  | ridNe (v : Int)
  /-- `attribute(name) == value`: predicate equals `name` and object
  equals `value` on the same statement. -/
  | attrib (name value : String)
  /-- `attribute(name) != value`: predicate equals `name` and object
  differs from `value` on the same statement. -/
  | attribNe (name value : String)
  /-- `term == <subquery>`: membership of the term's text in the
  materialized string result list of a nested select. -/
  | memberOf (t : Term) (vs : List String)
  /-- `statementId == <subquery>`: membership of the statement id in the
  materialized integer result list of a nested select. -/
  | idMember (vs : List Int)
  /-- `attribute(name) == <subquery>`: predicate equals `name` and the
  object text is a member of the subquery result, on the same statement. -/
  | attribMember (name : String) (vs : List String)
  /-- Logical AND. -/
  | and (a b : QueryExpr)
  /-- Logical OR. -/
  | or (a b : QueryExpr)
  /-- Logical NOT. -/
  | not (a : QueryExpr)
deriving DecidableEq, Repr

/-- Modelled from the spec: pure, deterministic evaluation of a query
expression against a single statement. -/
def evalExpr : QueryExpr → PiiResourceStatement → Bool
  | .termEq t v, s => t.text s == v
  | .termNe t v, s => t.text s != v
  | .idEq v, s => s.id == v
  | .idNe v, s => s.id != v
  | .typeEq v, s => s.type == v
  | .typeNe v, s => s.type != v
  | .intCmp t op v, s =>
    match parseInt (t.text s) with
    | some n => op.apply n v
    | none => false
  | .attrCmp name op v, s =>
    s.predicate == name &&
      (match parseInt s.object with
       | some n => op.apply n v
       | none => false)
  | .ridEq v, s => resourceIdToInt s.subject == v
  | .ridNe v, s => resourceIdToInt s.subject != v
  | .attrib name value, s => s.predicate == name && s.object == value
  | .attribNe name value, s => s.predicate == name && s.object != value
  | .memberOf t vs, s => vs.contains (t.text s)
  | .idMember vs, s => vs.contains s.id
  | .attribMember name vs, s => s.predicate == name && vs.contains s.object
  | .and a b, s => evalExpr a s && evalExpr b s
  | .or a b, s => evalExpr a s || evalExpr b s
  | .not a, s => !evalExpr a s

namespace PiiResourceDatabase

/-- Modelled from the spec: `select(expression)` — scan the store in id
order and keep the statements the expression matches, preserving scan
order. -/
def select (db : PiiResourceDatabase) (e : QueryExpr) : List PiiResourceStatement :=
  db.lstStatements.filter (evalExpr e)

/-- Modelled from the spec: `select(projection, expression)` — apply an
infallible projection to each matching statement, in scan order. -/
def selectProj {α : Type} (db : PiiResourceDatabase)
    (proj : PiiResourceStatement → α) (e : QueryExpr) : List α :=
  (db.select e).map proj

/-- Map a fallible conversion over matched rows; the first row whose
conversion fails aborts the whole computation with that row's id. -/
def convertRows {α : Type} (conv : PiiResourceStatement → Option α) :
    List PiiResourceStatement → Except Int (List α)
  | [] => .ok []
  | s :: rest =>
    match conv s with
    | none => .error s.id
    | some v =>
      match convertRows conv rest with
      | .error e => .error e
      | .ok vs => .ok (v :: vs)

/-- Modelled from the spec: `select` with a fallible projection
conversion — a conversion failure is surfaced as an error tied to the
failing row (its statement id) and fails the whole call; no row is
skipped and no default is substituted. -/
def selectConv {α : Type} (db : PiiResourceDatabase)
    (conv : PiiResourceStatement → Option α) (e : QueryExpr) : Except Int (List α) :=
  convertRows conv (db.select e)

end PiiResourceDatabase

open PiiResourceDatabase in
/-- The 15 statements inserted by `TestPiiResourceDatabase::initTestCase`,
in insertion order: three designer claims with reifying evaluation
statements, then title, wife and kid-count facts about three people. -/
def testStatements : List PiiResourceStatement :=
  [ resource "PiiResourceDatabase" "my:designer" "Topi",
    literalInt 0 "my:evaluation" "true",
    resource "PiiResourceDatabase" "my:designer" "Lasse",
    literalInt 2 "my:evaluation" "true",
    resource "PiiResourceDatabase" "my:designer" "Olli",
    literalInt 4 "my:evaluation" "false",
    literal "Topi" "my:title" "CTO",
    resource "Topi" "my:wife" "Anna",
    literal "Lasse" "my:title" "Software Engineer",
    resource "Lasse" "my:wife" "Tuulikki",
    literal "Olli" "my:title" "Keisari",
    resource "Olli" "my:wife" "Johanna",
    literal "Topi" "my:kids" "6",
    literal "Lasse" "my:kids" "3",
    literal "Olli" "my:kids" "1" ]

/-- The regression database of `TestPiiResourceDatabase`: the test store
after all 15 inserts. -/
def testDb : PiiResourceDatabase := (PiiResourceDatabase.empty.addAll testStatements).1

open PiiResourceDatabase in
/-- A small list of valid statements carrying caller-supplied ids, used
to exercise id assignment. -/
def witnessList : List PiiResourceStatement :=
  [resource "a" "p" "x", { literal "b" "q" "y" with id := 99 }]

open PiiResourceDatabase in
/-- A two-statement store where the predicate of one statement and the
object of the other would match an attribute query only if predicate and
object were joined across statements. -/
def crossDb : PiiResourceDatabase :=
  (PiiResourceDatabase.empty.addAll
    [literal "A" "my:p" "other", literal "B" "my:q" "val"]).1

/-! ## Helper lemmas -/

theorem addStatement_of_valid (db : PiiResourceDatabase) (s : PiiResourceStatement)
    (h : s.isValid = true) :
    db.addStatement s =
      (⟨db.lstStatements ++ [{ s with id := (db.lstStatements.length : Int) }]⟩,
        (db.lstStatements.length : Int)) := by
  simp [PiiResourceDatabase.addStatement, h]

theorem addStatement_of_invalid (db : PiiResourceDatabase) (s : PiiResourceStatement)
    (h : s.isValid = false) :
    db.addStatement s = (db, -1) := by
  simp [PiiResourceDatabase.addStatement, h]

theorem addAll_of_all_valid (L : List PiiResourceStatement) :
    ∀ db : PiiResourceDatabase, (∀ s ∈ L, s.isValid = true) →
      (db.addAll L).1.lstStatements.map (fun s => s.id) =
          db.lstStatements.map (fun s => s.id) ++
            (List.range L.length).map (fun k => (Int.ofNat (db.lstStatements.length + k))) ∧
      (db.addAll L).2 =
          (List.range L.length).map (fun k => (Int.ofNat (db.lstStatements.length + k))) := by
  induction L with
  | nil => intro db h; simp [PiiResourceDatabase.addAll]
  | cons s rest ih =>
    intro db h
    have hs : s.isValid = true := h s (List.mem_cons_self s rest)
    have hrest : ∀ t ∈ rest, t.isValid = true := fun t ht => h t (List.mem_cons_of_mem s ht)
    have hadd := addStatement_of_valid db s hs
    have hlen :
        (db.addStatement s).1.lstStatements.length = db.lstStatements.length + 1 := by
      rw [hadd]; simp
    obtain ⟨hids, hret⟩ := ih (db.addStatement s).1 hrest
    constructor
    · show ((db.addStatement s).1.addAll rest).1.lstStatements.map (fun s => s.id) = _
      rw [hids, hlen, hadd]
      simp [List.range_succ_eq_map, List.map_map, Function.comp]
      intro a ha
      omega
    · show ((db.addStatement s).2 :: ((db.addStatement s).1.addAll rest).2) = _
      rw [hret, hlen, hadd]
      simp [List.range_succ_eq_map, List.map_map, Function.comp]
      intro a ha
      omega

/-! ## Claim theorems -/

/-- Claim C1: for every sequence of valid statements added via
`addStatement` to a fresh store, `statementCount()` equals the number of
statements added, the returned ids are `0,1,2,...` in insertion order
with no gaps or reuse, and the ids stored on the inserted statements are
the same sequence, each assigned id overwriting any caller-supplied id. -/
theorem addAll_fresh_sequential_ids (L : List PiiResourceStatement)
    (h : ∀ s ∈ L, s.isValid = true) :
    (PiiResourceDatabase.empty.addAll L).1.statementCount = (L.length : Int) ∧
    (PiiResourceDatabase.empty.addAll L).2 = (List.range L.length).map Int.ofNat ∧
    (PiiResourceDatabase.empty.addAll L).1.lstStatements.map (fun s => s.id) =
      (List.range L.length).map Int.ofNat := by
  obtain ⟨hids, hret⟩ := addAll_of_all_valid L PiiResourceDatabase.empty h
  have hids' : (PiiResourceDatabase.empty.addAll L).1.lstStatements.map (fun s => s.id) =
      (List.range L.length).map Int.ofNat := by
    rw [hids]; simp [PiiResourceDatabase.empty]
  refine ⟨?_, by rw [hret]; simp [PiiResourceDatabase.empty], hids'⟩
  have hlen := congrArg List.length hids'
  simp at hlen
  simp [PiiResourceDatabase.statementCount, hlen]

/-- Witness for claim C1 at a concrete two-statement list whose members
carry caller-supplied ids. -/
theorem addAll_fresh_sequential_ids_witness :
    (∀ s ∈ witnessList, s.isValid = true) ∧
    ((PiiResourceDatabase.empty.addAll witnessList).1.statementCount =
        (witnessList.length : Int) ∧
      (PiiResourceDatabase.empty.addAll witnessList).2 =
        (List.range witnessList.length).map Int.ofNat ∧
      (PiiResourceDatabase.empty.addAll witnessList).1.lstStatements.map (fun s => s.id) =
        (List.range witnessList.length).map Int.ofNat) :=
  ⟨by decide, addAll_fresh_sequential_ids witnessList (by decide)⟩

/-- Claim C2: adding an invalid statement to any store returns the
sentinel id -1 and leaves the store (hence `statementCount()` and the
next id to be assigned) entirely unchanged; `addStatement` is a total
function, so no exception is raised. -/
theorem addStatement_invalid_noop (db : PiiResourceDatabase)
    (s : PiiResourceStatement) (h : s.isValid = false) :
    db.addStatement s = (db, -1) ∧
    (db.addStatement s).1.statementCount = db.statementCount ∧
    (db.addStatement s).1.lstStatements = db.lstStatements := by
  have heq := addStatement_of_invalid db s h
  exact ⟨heq, by rw [heq], by rw [heq]⟩

/-- Witness for claim C2: a default-constructed statement is invalid and
adding it to the regression store is a no-op returning -1. -/
theorem addStatement_invalid_noop_witness :
    PiiResourceStatement.mkDefault.isValid = false ∧
    (testDb.addStatement .mkDefault = (testDb, -1) ∧
      (testDb.addStatement .mkDefault).1.statementCount = testDb.statementCount ∧
      (testDb.addStatement .mkDefault).1.lstStatements = testDb.lstStatements) :=
  ⟨by decide, addStatement_invalid_noop testDb .mkDefault (by decide)⟩

/-- Claim C3: `isValid()` returns true iff the subject is non-empty, the
object kind is not `InvalidType` and the object text is non-empty; the
predicate has no bearing on validity (replacing it by any string, the
empty one included, leaves `isValid()` unchanged). -/
theorem isValid_characterisation (s : PiiResourceStatement) :
    (s.isValid = true ↔
      (s.subject ≠ "" ∧ s.type ≠ StatementType.InvalidType ∧ s.object ≠ "")) ∧
    (∀ p : String,
      ({ s with predicate := p } : PiiResourceStatement).isValid = s.isValid) := by
  constructor
  · simp [PiiResourceStatement.isValid, and_assoc]
  · intro p
    simp [PiiResourceStatement.isValid]

/-- Claim C10: a default-constructed statement has object kind
`InvalidType`, is invalid, and adding it to any store returns -1 and
changes nothing. -/
theorem mkDefault_invalid :
    PiiResourceStatement.mkDefault.type = StatementType.InvalidType ∧
    PiiResourceStatement.mkDefault.isValid = false ∧
    ∀ db : PiiResourceDatabase,
      db.addStatement .mkDefault = (db, -1) ∧
      (db.addStatement .mkDefault).1.statementCount = db.statementCount := by
  refine ⟨rfl, by decide, fun db => ?_⟩
  have heq := addStatement_of_invalid db .mkDefault (by decide)
  exact ⟨heq, by rw [heq]⟩

/-- Claim C4: `select(X, predicate == "p")` returns exactly the stored
statements whose predicate equals `p`, as a sublist of the store (scan
order); when the store's ids ascend, the result's ids ascend; when no
stored statement has predicate `p`, the result is the empty sequence. -/
theorem select_predicate_exact (db : PiiResourceDatabase) (p : String) :
    (∀ s : PiiResourceStatement,
      s ∈ db.select (.termEq .pred p) ↔ s ∈ db.lstStatements ∧ s.predicate = p) ∧
    (db.select (.termEq .pred p)).Sublist db.lstStatements ∧
    (List.Pairwise (fun a b => a.id < b.id) db.lstStatements →
      List.Pairwise (fun a b => a.id < b.id) (db.select (.termEq .pred p))) ∧
    ((∀ s ∈ db.lstStatements, s.predicate ≠ p) → db.select (.termEq .pred p) = []) := by
  refine ⟨?_, ?_, ?_, ?_⟩
  · intro s
    simp [PiiResourceDatabase.select, List.mem_filter, evalExpr, Term.text]
  · exact List.filter_sublist _
  · intro hpw
    exact hpw.sublist (List.filter_sublist _)
  · intro hnone
    simp only [PiiResourceDatabase.select, List.filter_eq_nil_iff]
    intro s hs
    simp [evalExpr, Term.text, hnone s hs]

/-- Witness for claim C4: on the regression store (whose ids ascend) a
predicate matching nothing yields an id-ascending, empty result. -/
theorem select_predicate_exact_witness :
    List.Pairwise (fun a b => a.id < b.id) testDb.lstStatements ∧
    List.Pairwise (fun a b => a.id < b.id) (testDb.select (.termEq .pred "my:nothing")) ∧
    (∀ s ∈ testDb.lstStatements, s.predicate ≠ "my:nothing") ∧
    testDb.select (.termEq .pred "my:nothing") = [] :=
  ⟨by decide, (select_predicate_exact testDb "my:nothing").2.2.1 (by decide),
    by decide, (select_predicate_exact testDb "my:nothing").2.2.2 (by decide)⟩

/-- Claim C5: the boolean algebra of `select` — `select(A || B)` is the
order-preserving union of `select(A)` and `select(B)` (the store scanned
once, a row kept when it lies in either result, so each matching row
contributes at most once); `select(A && B)` is their intersection;
`select(!A)` is the complement of `select(A)` within the full store. -/
theorem select_boolean_algebra (db : PiiResourceDatabase) (A B : QueryExpr) :
    db.select (A.or B) =
      db.lstStatements.filter (fun s => decide (s ∈ db.select A ∨ s ∈ db.select B)) ∧
    db.select (A.and B) =
      db.lstStatements.filter (fun s => decide (s ∈ db.select A ∧ s ∈ db.select B)) ∧
    db.select A.not =
      db.lstStatements.filter (fun s => decide (s ∉ db.select A)) := by
  refine ⟨?_, ?_, ?_⟩
  · apply List.filter_congr
    intro s hs
    simp [PiiResourceDatabase.select, List.mem_filter, evalExpr, hs]
  · apply List.filter_congr
    intro s hs
    simp [PiiResourceDatabase.select, List.mem_filter, evalExpr, hs]
  · apply List.filter_congr
    intro s hs
    simp [PiiResourceDatabase.select, List.mem_filter, evalExpr, hs]

/-- Claim C6: a statement matches `attribute(n) == v` iff its own
predicate equals `n` and its own object equals `v`; the query is the
conjunction `predicate == n && object == v` evaluated on the same
statement, so a store where one statement carries the predicate and a
different one carries the object yields no match (no cross-statement
join). -/
theorem attrib_same_statement (db : PiiResourceDatabase) (n v : String) :
    (∀ s : PiiResourceStatement,
      evalExpr (.attrib n v) s = true ↔ s.predicate = n ∧ s.object = v) ∧
    db.select (.attrib n v) = db.select (.and (.termEq .pred n) (.termEq .obj v)) ∧
    ((∀ s ∈ db.lstStatements, ¬(s.predicate = n ∧ s.object = v)) →
      db.select (.attrib n v) = []) := by
  refine ⟨?_, ?_, ?_⟩
  · intro s
    simp [evalExpr]
  · rfl
  · intro hnone
    simp only [PiiResourceDatabase.select, List.filter_eq_nil_iff]
    intro s hs
    simp only [evalExpr, Bool.and_eq_true, beq_iff_eq, ne_eq]
    intro hcontra
    exact hnone s hs ⟨hcontra.1, hcontra.2⟩

/-- Witness for claim C6: in `crossDb` the predicate `"my:p"` occurs on
one statement and the object `"val"` on another, and
`attribute("my:p") == "val"` matches nothing. -/
theorem attrib_same_statement_witness :
    (∀ s ∈ crossDb.lstStatements, ¬(s.predicate = "my:p" ∧ s.object = "val")) ∧
    crossDb.select (.attrib "my:p" "val") = [] :=
  ⟨by decide, (attrib_same_statement crossDb "my:p" "val").2.2 (by decide)⟩

/-- Claim C7: a statement built with integer subject `n` has subject text
`"[n]"`, and it is equal (hence indistinguishable to every engine
operation — expression evaluation and insertion included) to the
statement built with the raw textual subject `"[n]"` and the same
predicate, object, type and id. -/
theorem mkInt_reification (n : Int) (p o : String) (t : StatementType) (i : Int) :
    (PiiResourceStatement.mkInt n p o t i).subject = "[" ++ toString n ++ "]" ∧
    PiiResourceStatement.mkInt n p o t i =
      PiiResourceStatement.mk' ("[" ++ toString n ++ "]") p o t i ∧
    (∀ e : QueryExpr,
      evalExpr e (.mkInt n p o t i) =
        evalExpr e (.mk' ("[" ++ toString n ++ "]") p o t i)) ∧
    (∀ db : PiiResourceDatabase,
      db.addStatement (.mkInt n p o t i) =
        db.addStatement (.mk' ("[" ++ toString n ++ "]") p o t i)) :=
  ⟨rfl, rfl, fun _ => rfl, fun _ => rfl⟩

/-- Claim C8: on the 15-statement regression store, subquery results are
used as set-membership filters: the wife query whose subquery selects
subjects with more than five kids returns exactly `["Anna"]`, the
analogous fewer-than-two-kids query returns exactly `["Johanna"]`, and
projecting the object of designer statements whose statement id lies in
the reifying `evaluation == "true"` subquery returns exactly
`["Topi", "Lasse"]` in insertion order. -/
theorem testDb_subquery_membership :
    testDb.statementCount = 15 ∧
    testDb.selectProj (fun s => s.object)
      (.and (.termEq .pred "my:wife")
        (.memberOf .subj (testDb.selectProj (fun s => s.subject)
          (.and (.termEq .pred "my:kids") (.intCmp .obj .gt 5))))) = ["Anna"] ∧
    testDb.selectProj (fun s => s.object)
      (.and (.termEq .pred "my:wife")
        (.memberOf .subj (testDb.selectProj (fun s => s.subject)
          (.attrCmp "my:kids" .lt 2)))) = ["Johanna"] ∧
    testDb.selectProj (fun s => s.object)
      (.and (.termEq .pred "my:designer")
        (.idMember (testDb.selectProj (fun s => resourceIdToInt s.subject)
          (.attrib "my:evaluation" "true")))) = ["Topi", "Lasse"] := by
  decide

theorem convertRows_of_all_some {α : Type} (conv : PiiResourceStatement → Option α) :
    ∀ l : List PiiResourceStatement, (∀ s ∈ l, (conv s).isSome = true) →
      PiiResourceDatabase.convertRows conv l = .ok (l.filterMap conv) := by
  intro l
  induction l with
  | nil => intro _; rfl
  | cons s rest ih =>
    intro h
    obtain ⟨v, hv⟩ := Option.isSome_iff_exists.mp (h s (List.mem_cons_self s rest))
    have hrest := ih fun t ht => h t (List.mem_cons_of_mem s ht)
    simp [PiiResourceDatabase.convertRows, hv, hrest, List.filterMap_cons]

theorem convertRows_of_some_none {α : Type} (conv : PiiResourceStatement → Option α) :
    ∀ l : List PiiResourceStatement, (∃ s ∈ l, conv s = none) →
      ∃ s ∈ l, conv s = none ∧ PiiResourceDatabase.convertRows conv l = .error s.id := by
  intro l
  induction l with
  | nil => rintro ⟨s, hs, -⟩; exact absurd hs (List.not_mem_nil s)
  | cons s rest ih =>
    rintro ⟨t, ht, hnone⟩
    cases hcs : conv s with
    | none =>
      exact ⟨s, List.mem_cons_self s rest,
        hcs, by simp [PiiResourceDatabase.convertRows, hcs]⟩
    | some v =>
      have htrest : t ∈ rest := by
        rcases List.mem_cons.mp ht with h | h
        · rw [h] at hnone; rw [hnone] at hcs; exact absurd hcs (by simp)
        · exact h
      obtain ⟨u, hu, hunone, herr⟩ := ih ⟨t, htrest, hnone⟩
      exact ⟨u, List.mem_cons_of_mem s hu, hunone,
        by simp [PiiResourceDatabase.convertRows, hcs, herr]⟩

/-- Claim C9: `select` with a fallible projection conversion — when every
matching row converts, the call succeeds with exactly the converted
value of every matching row (no row skipped, no default substituted);
when some matching row fails to convert, the whole call fails with an
error carrying that row's statement id. -/
theorem selectConv_failure_policy {α : Type} (db : PiiResourceDatabase)
    (conv : PiiResourceStatement → Option α) (e : QueryExpr) :
    ((∀ s ∈ db.select e, (conv s).isSome = true) →
      db.selectConv conv e = .ok ((db.select e).filterMap conv)) ∧
    ((∃ s ∈ db.select e, conv s = none) →
      ∃ s ∈ db.select e, conv s = none ∧ db.selectConv conv e = .error s.id) :=
  ⟨fun h => convertRows_of_all_some conv (db.select e) h,
    fun h => convertRows_of_some_none conv (db.select e) h⟩

/-- Witness for claim C9 on the regression store: every `my:kids` object
parses, so that projection succeeds on all three rows, while a `my:title`
object does not parse and the whole call fails with that row's id. -/
theorem selectConv_failure_policy_witness :
    (∀ s ∈ testDb.select (.termEq .pred "my:kids"), (parseInt s.object).isSome = true) ∧
    testDb.selectConv (fun s => parseInt s.object) (.termEq .pred "my:kids") =
      .ok ((testDb.select (.termEq .pred "my:kids")).filterMap (fun s => parseInt s.object)) ∧
    (∃ s ∈ testDb.select (.termEq .pred "my:title"), parseInt s.object = none) ∧
    (∃ s ∈ testDb.select (.termEq .pred "my:title"),
      parseInt s.object = none ∧
      testDb.selectConv (fun s => parseInt s.object) (.termEq .pred "my:title") = .error s.id) :=
  ⟨by decide,
    (selectConv_failure_policy testDb (fun s => parseInt s.object)
      (.termEq .pred "my:kids")).1 (by decide),
    by decide,
    (selectConv_failure_policy testDb (fun s => parseInt s.object)
      (.termEq .pred "my:title")).2 (by decide)⟩

end Into
